import Mathlib

/-!
Verification of the FaceTune lyric-to-melody pipeline (`src/llava_music21.py`).

The pure core of the pipeline is embedded shallowly: Python string
primitives (`str.split`, `str.strip`, `str.join`, slicing) are modelled on
`List Char` / `String`, and each pipeline function is translated from the
source. External collaborators (the pyphen hyphenation dictionary, the
music21 MIDI writer, the FluidSynth renderer, the So-VITS-SVC subprocess)
are not part of this repository's source; they are modelled as explicit
parameters or small outcome types, documented at each definition.
-/

namespace FaceTune

/-! ## Python string primitives -/

/-- Python's notion of whitespace for `str.split()` / `str.strip()`
(space, tab, newline, carriage return, vertical tab, form feed). -/
def pyIsSpace (c : Char) : Bool :=
  c = ' ' || c = '\t' || c = '\n' || c = '\r' || c = '\x0b' || c = '\x0c'

/-- Worker for Python `str.split()` with no separator: split on runs of
whitespace, discarding empty pieces.  `acc` holds the current word reversed. -/
def splitWsGo : List Char → List Char → List (List Char)
  | [], acc => if acc.isEmpty then [] else [acc.reverse]
  | c :: cs, acc =>
    if pyIsSpace c then
      if acc.isEmpty then splitWsGo cs [] else acc.reverse :: splitWsGo cs []
    else splitWsGo cs (c :: acc)

/-- Python `line.split()` (no argument): whitespace-run split, no empty pieces. -/
def pySplitWs (s : String) : List String :=
  (splitWsGo s.toList []).map String.mk

/-- Worker for Python `str.split(sep)` with a one-character separator:
empty pieces are kept, as in Python. -/
def splitCharGo (sep : Char) : List Char → List Char → List (List Char)
  | [], acc => [acc.reverse]
  | c :: cs, acc =>
    if c = sep then acc.reverse :: splitCharGo sep cs []
    else splitCharGo sep cs (c :: acc)

/-- Python `s.split(sep)` for a one-character separator `sep`. -/
def pySplitChar (sep : Char) (s : String) : List String :=
  (splitCharGo sep s.toList []).map String.mk

/-- Strip characters satisfying `p` from both ends of a character list. -/
def pyStripListOn (p : Char → Bool) (l : List Char) : List Char :=
  ((l.dropWhile p).reverse.dropWhile p).reverse

/-- Python `s.strip()`: remove leading and trailing whitespace. -/
def pyStrip (s : String) : String :=
  String.mk (pyStripListOn pyIsSpace s.toList)

/-- Python `s.strip(c)` for a single strip character `c`. -/
def pyStripChar (c : Char) (s : String) : String :=
  String.mk (pyStripListOn (fun d => d = c) s.toList)

/-- Python `sep.join(parts)`. -/
def pyJoin (sep : String) : List String → String
  | [] => ""
  | [x] => x
  | x :: xs => x ++ sep ++ pyJoin sep xs

/-- Python `l[0].upper() + l[1:]` applied to a string: uppercase the first
character (via `Char.toUpper`, faithful to `str.upper` on ASCII letters)
and keep the rest. -/
def capFirst (s : String) : String :=
  match s.toList with
  | [] => ""
  | c :: cs => String.mk (c.toUpper :: cs)

/-! ## Lyric post-processing (`generate_lyrics_with_ollama`, `format_text`) -/

/-- From `generate_lyrics_with_ollama` (src/llava_music21.py lines 72-73):
`lyrics = "".join(parsed).strip()` followed by `return lyrics.strip('"')`.
`raw` is the joined model output stream. -/
def postprocess_model_output (raw : String) : String :=
  pyStripChar '"' (pyStrip raw)

/-- From `format_text` (src/llava_music21.py lines 90-94):
strip each line, drop blank lines, uppercase each first letter, and join
the lines with a double newline. -/
def format_text (text : String) : String :=
  let lines := ((pySplitChar '\n' text).map pyStrip).filter (fun l => l ≠ "")
  let lines2 := lines.map (fun l => if l ≠ "" then capFirst l else "")
  pyJoin "\n\n" lines2

/-! ## Syllabifier (`split_into_syllables`)

The pyphen hyphenation dictionary is external library state, not source of
this repository; it is modelled as a function `hyph : String → String`
standing for `pyphen.Pyphen(lang='en').inserted`: it returns the word with
a hyphen character inserted at each detected syllable boundary (so a word
with no detected boundary comes back unchanged). -/

/-- From `split_into_syllables` (src/llava_music21.py lines 99-110): split
the line into words with `line.split()`, hyphenate each word, split the
hyphenated form on `'-'`, and extend the running list, in word order. -/
def split_into_syllables (hyph : String → String) (line : String) : List String :=
  let words := pySplitWs line
  words.foldl (fun syllables word => syllables ++ pySplitChar '-' (hyph word)) []

/-! ## Melody Mapper (`generate_melody_for_line`) -/

/-- The fixed C-major scale of src/llava_music21.py line 114. -/
def scale_notes : List String := ["C4", "D4", "E4", "F4", "G4", "A4", "B4"]

/-- The `for i, syl in enumerate(syllables)` loop of
`generate_melody_for_line` (src/llava_music21.py lines 118-120), with the
running index made explicit. Each note is (pitch, quarterLength, lyric). -/
def melodyGo : Nat → List String → List (String × ℚ × String)
  | _, [] => []
  | i, syl :: rest =>
    (scale_notes.getD (i % scale_notes.length) "", (1 : ℚ), syl) :: melodyGo (i + 1) rest

/-- From `generate_melody_for_line` (src/llava_music21.py lines 112-121). -/
def generate_melody_for_line (hyph : String → String) (line : String) :
    List (String × ℚ × String) :=
  melodyGo 0 (split_into_syllables hyph line)

/-- Explicit state-passing embedding of the ambient `random` module state
(the program imports `random` but `generate_melody_for_line` never consults
it): the function is run with the generator state threaded through and
returns it untouched. -/
def generate_melody_for_line_rng (hyph : String → String) (rng : Nat) (line : String) :
    List (String × ℚ × String) × Nat :=
  (generate_melody_for_line hyph line, rng)

/-! ## Score Builder (`generate_melody_from_lyrics`, pure part) -/

/-- A Score: the ordered note sequence of the music21 `Stream` plus the
instrument's MIDI program id (src/llava_music21.py lines 129-142). -/
structure Score where
  midiProgram : Nat
  notes : List (String × ℚ × String)
deriving DecidableEq, Repr

/-- From `generate_melody_from_lyrics` (src/llava_music21.py lines 129-142):
filter out blank lines, generate each line's melody in order, and append
all notes to the stream; the instrument program id is 53. -/
def generate_melody_from_lyrics (hyph : String → String) (lyrics : String) : Score :=
  let lines := (pySplitChar '\n' lyrics).filter (fun l => pyStrip l ≠ "")
  let notes := lines.foldl (fun acc line => acc ++ generate_melody_for_line hyph line) []
  { midiProgram := 53, notes := notes }

/-! ## Score Serializer (spec-modelled)

The MIDI writing and re-parsing is done by the music21 library
(`s.write("midi", fp=midi_path)` in src/llava_music21.py line 147), which
is not source of this repository. -/

/-- MIDI numbers of the scale pitches as music21 assigns them
(C4 = 60 up to B4 = 71 on the white keys). -/
def pitch_to_midi (p : String) : Nat :=
  if p = "C4" then 60
  else if p = "D4" then 62
  else if p = "E4" then 64
  else if p = "F4" then 65
  else if p = "G4" then 67
  else if p = "A4" then 69
  else if p = "B4" then 71
  else 0

/-- Inverse of `pitch_to_midi` on the MIDI numbers of the fixed scale. -/
def midi_to_name (n : Nat) : String :=
  if n = 60 then "C4"
  else if n = 62 then "D4"
  else if n = 64 then "E4"
  else if n = 65 then "F4"
  else if n = 67 then "G4"
  else if n = 69 then "A4"
  else if n = 71 then "B4"
  else ""

/-- An event of the serialized note-event file: the instrument program
change, a lyric meta-event, a note-on, or a note-off carrying the elapsed
duration (in quarter lengths) since its note-on. -/
inductive MidiEvent where
  | programChange (program : Nat)
  | lyricMeta (text : String)
  | noteOn (pitch : Nat)
  | noteOff (pitch : Nat) (delta : ℚ)
deriving DecidableEq, Repr

/-- Modelled from the spec: the Score Serializer (music21's MIDI writer,
not under src/) emits one track with the fixed instrument event first,
then one note-on/note-off pair per Note in sequence order, each lyric
attached as a lyric meta-event to the corresponding note-on. -/
def serialize_score (sc : Score) : List MidiEvent :=
  MidiEvent.programChange sc.midiProgram ::
    sc.notes.flatMap (fun t =>
      [MidiEvent.lyricMeta t.2.2, MidiEvent.noteOn (pitch_to_midi t.1),
       MidiEvent.noteOff (pitch_to_midi t.1) t.2.1])

/-- Modelled from the spec: re-parse the note events of a serialized file
back into (pitch, duration, lyric) triples, in file order. -/
def parse_note_events : List MidiEvent → Option (List (String × ℚ × String))
  | [] => some []
  | MidiEvent.lyricMeta s :: MidiEvent.noteOn p :: MidiEvent.noteOff p' d :: rest =>
    if p' = p then (parse_note_events rest).map (fun ns => (midi_to_name p, d, s) :: ns)
    else none
  | _ => none

/-- Modelled from the spec: re-parse a serialized file: the instrument
event first, then the note events. -/
def parse_score_file (evs : List MidiEvent) : Option (Nat × List (String × ℚ × String)) :=
  match evs with
  | MidiEvent.programChange p :: rest =>
    (parse_note_events rest).map (fun ns => (p, ns))
  | _ => none

/-! ## Audio Renderer (`midi_to_wav`) and its temporary files

`midi_to_wav` (src/llava_music21.py lines 168-180) writes the MIDI bytes
to a fresh temporary `.mid` file, creates a fresh (empty) temporary `.wav`
file, invokes FluidSynth on them, reads the `.wav` back, removes both
files and returns the bytes.  The FluidSynth call itself is external
library code (midi2audio), abstracted as a `SynthOutcome`:
`midi2audio.FluidSynth.midi_to_audio` runs the `fluidsynth` executable via
`subprocess.call`, whose exit status it ignores, so a missing sound-font
file gives `failedIgnored` (the command fails, nothing is written to the
`.wav` file, no Python-level error is raised); `raised` covers a
Python-level exception from the invocation (for example the `fluidsynth`
executable itself being absent); `rendered b` is a successful render
writing waveform bytes `b`. -/

/-- Outcome of the external FluidSynth invocation. -/
inductive SynthOutcome where
  | rendered (bytes : List Nat)
  | failedIgnored
  | raised
deriving DecidableEq, Repr

/-- A flat file-system state: path to contents. -/
structure Fs where
  files : List (String × List Nat)
deriving DecidableEq, Repr

def fsWrite (fs : Fs) (path : String) (bytes : List Nat) : Fs :=
  ⟨(path, bytes) :: fs.files.filter (fun pb => pb.1 ≠ path)⟩

def fsRemove (fs : Fs) (path : String) : Fs :=
  ⟨fs.files.filter (fun pb => pb.1 ≠ path)⟩

def fsRead (fs : Fs) (path : String) : List Nat :=
  ((fs.files.find? (fun pb => pb.1 = path)).map Prod.snd).getD []

def fsExists (fs : Fs) (path : String) : Bool :=
  fs.files.any (fun pb => pb.1 = path)

/-- The fixed temporary file names of one `midi_to_wav` invocation
(`tempfile.NamedTemporaryFile` with suffixes `.mid` / `.wav`). -/
def tmpMidPath : String := "tmp.mid"

def tmpWavPath : String := "tmp.wav"

/-- Semantics of `fs.midi_to_audio(midi_path, wav_path)` over the
file-system state, per the outcome of the external invocation. -/
def run_fluidsynth (outcome : SynthOutcome) (fs : Fs) (wavPath : String) : Option Fs :=
  match outcome with
  | SynthOutcome.rendered b => some (fsWrite fs wavPath b)
  | SynthOutcome.failedIgnored => some fs
  | SynthOutcome.raised => none

/-- From `midi_to_wav` (src/llava_music21.py lines 168-180), as explicit
state passing over the file system: write the temp `.mid`, create the
empty temp `.wav`, run FluidSynth, read the `.wav`, remove both temp
files, return the bytes.  A raised exception propagates (`Except.error`)
at the point it occurs, skipping the remaining statements — in particular
the two `os.remove` calls, which the source places after the read with no
`try/finally`. -/
def midi_to_wav (outcome : SynthOutcome) (midiBytes : List Nat) :
    Except String (List Nat) × Fs :=
  let fs0 : Fs := ⟨[]⟩
  let fs1 := fsWrite fs0 tmpMidPath midiBytes
  let fs2 := fsWrite fs1 tmpWavPath []
  match run_fluidsynth outcome fs2 tmpWavPath with
  | none => (Except.error "exception raised by the FluidSynth invocation", fs2)
  | some fs3 =>
    let wavData := fsRead fs3 tmpWavPath
    let fs4 := fsRemove fs3 tmpMidPath
    let fs5 := fsRemove fs4 tmpWavPath
    (Except.ok wavData, fs5)

/-! ## Voice Conversion Adapter (`so_vits_svc_infer`) -/

/-- Result of the external So-VITS-SVC subprocess invocation. -/
structure ProcResult where
  exitCode : Nat
  stdout : String
  stderr : String
deriving DecidableEq, Repr

/-- The failure conditions of the adapter: `invocationFailed` carries the
subprocess's stderr text (`subprocess.CalledProcessError.stderr`);
`outputMissing` carries the expected artifact name and the listing of the
results directory (src/llava_music21.py lines 213-223). -/
inductive SvcError where
  | invocationFailed (stderr : String)
  | outputMissing (expected : String) (dirListing : List String)
deriving DecidableEq, Repr

/-- The input identifier `-n temp_infer` (src/llava_music21.py line 207). -/
def svc_input_id : String := "temp_infer"

/-- The pitch shift `-t 0` (src/llava_music21.py line 208). -/
def svc_pitch_shift : Nat := 0

/-- The target speaker `-s hal-9000` (src/llava_music21.py line 209). -/
def svc_speaker : String := "hal-9000"

/-- The expected output artifact name (src/llava_music21.py line 218),
derived from the input identifier, the pitch shift and the speaker id. -/
def svc_expected_output : String :=
  svc_input_id ++ "_" ++ toString svc_pitch_shift ++ "key_" ++ svc_speaker ++
    "_sovits_pm.flac"

/-- The command line of the single subprocess invocation
(src/llava_music21.py lines 201-209). -/
def svc_cmd (svc_model svc_config : String) : List String :=
  ["python", "inference_main.py", "-m", svc_model, "-c", svc_config,
   "-n", svc_input_id, "-t", toString svc_pitch_shift, "-s", svc_speaker]

/-- From `so_vits_svc_infer` (src/llava_music21.py lines 210-227), with
the external subprocess abstracted by its `ProcResult` and the results
directory by its listing.  Returns the adapter's result together with the
list of subprocess invocations it performed.  `subprocess.run(...,
check=True)` raises `CalledProcessError` on a non-zero exit (the `except`
clause re-raises it after displaying `e.stderr`); otherwise the expected
output artifact is looked up and, if absent, `FileNotFoundError` is raised
with the directory listing. -/
def so_vits_svc_infer (proc : ProcResult) (resultsDir : List String)
    (readFile : String → List Nat) (svc_model svc_config : String) :
    Except SvcError (List Nat) × List (List String) :=
  let invocations := [svc_cmd svc_model svc_config]
  if proc.exitCode ≠ 0 then
    (Except.error (SvcError.invocationFailed proc.stderr), invocations)
  else if svc_expected_output ∈ resultsDir then
    (Except.ok (readFile svc_expected_output), invocations)
  else
    (Except.error (SvcError.outputMissing svc_expected_output resultsDir), invocations)

/-! ## Demonstration hyphenators for concrete evaluations -/

/-- A hyphenation dictionary that detects no syllable boundary in any
word: pyphen's `inserted` returns the word unchanged. -/
def no_boundary_hyph : String → String := fun w => w

/-- A hyphenation dictionary for the spec's end-to-end example:
"Hello" is hyphenated as "Hel-lo", every other word is left whole. -/
def hyph_demo : String → String := fun w => if w = "Hello" then "Hel-lo" else w

/-! ## Helper lemmas on the Python string primitives -/

theorem splitWsGo_flatten : ∀ (l acc : List Char),
    (splitWsGo l acc).flatten = acc.reverse ++ l.filter (fun c => !pyIsSpace c)
  | [], acc => by
    by_cases h : acc.isEmpty
    · simp [splitWsGo, h, List.isEmpty_iff.mp h]
    · simp [splitWsGo, h]
  | c :: cs, acc => by
    by_cases hc : pyIsSpace c
    · by_cases ha : acc.isEmpty
      · have := splitWsGo_flatten cs []
        simp [splitWsGo, hc, ha, List.isEmpty_iff.mp ha, this]
      · have := splitWsGo_flatten cs []
        simp [splitWsGo, hc, ha, this]
    · have := splitWsGo_flatten cs (c :: acc)
      simp [splitWsGo, hc, this]

theorem splitWsGo_all_space : ∀ (l : List Char),
    (∀ c ∈ l, pyIsSpace c = true) → splitWsGo l [] = []
  | [], _ => rfl
  | c :: cs, h => by
    have hc : pyIsSpace c = true := h c (by simp)
    have := splitWsGo_all_space cs (fun d hd => h d (by simp [hd]))
    simp [splitWsGo, hc, this]

theorem splitCharGo_flatten (sep : Char) : ∀ (l acc : List Char),
    (splitCharGo sep l acc).flatten = acc.reverse ++ l.filter (fun c => c ≠ sep)
  | [], acc => by simp [splitCharGo]
  | c :: cs, acc => by
    by_cases hc : c = sep
    · have := splitCharGo_flatten sep cs []
      simp [splitCharGo, hc, this]
    · have := splitCharGo_flatten sep cs (c :: acc)
      simp [splitCharGo, hc, this]

theorem splitCharGo_no_sep (sep : Char) : ∀ (l acc : List Char),
    sep ∉ l → splitCharGo sep l acc = [acc.reverse ++ l]
  | [], acc, _ => by simp [splitCharGo]
  | c :: cs, acc, h => by
    have hc : ¬ c = sep := fun hcs => h (by simp [hcs])
    have := splitCharGo_no_sep sep cs (c :: acc) (fun hm => h (by simp [hm]))
    simp [splitCharGo, hc, this]

theorem splitCharGo_append_sep (sep : Char) : ∀ (a rest acc : List Char),
    sep ∉ a →
    splitCharGo sep (a ++ sep :: rest) acc =
      (acc.reverse ++ a) :: splitCharGo sep rest []
  | [], rest, acc, _ => by simp [splitCharGo]
  | c :: cs, rest, acc, h => by
    have hc : ¬ c = sep := fun hcs => h (by simp [hcs])
    have := splitCharGo_append_sep sep cs rest (c :: acc) (fun hm => h (by simp [hm]))
    simp [splitCharGo, hc, this]

theorem splitCharGo_pieces (sep : Char) : ∀ (l acc : List Char),
    sep ∉ acc → ∀ p ∈ splitCharGo sep l acc, sep ∉ p
  | [], acc, ha, p, hp => by
    simp [splitCharGo] at hp
    subst hp
    simpa using ha
  | c :: cs, acc, ha, p, hp => by
    by_cases hc : c = sep
    · simp [splitCharGo, hc] at hp
      rcases hp with hp | hp
      · subst hp; simpa using ha
      · exact splitCharGo_pieces sep cs [] (by simp) p hp
    · simp [splitCharGo, hc] at hp
      refine splitCharGo_pieces sep cs (c :: acc) ?_ p hp
      simp only [List.mem_cons, not_or]
      exact ⟨fun hcs => hc hcs.symm, ha⟩

theorem string_data_eq : ∀ {a b : String}, a.data = b.data → a = b
  | ⟨_⟩, ⟨_⟩, h => congrArg String.mk h

theorem join_data : ∀ (L : List String) (s : String),
    (L.foldl (fun r t => r ++ t) s).data = s.data ++ (L.map String.data).flatten
  | [], s => by simp
  | t :: L, s => by
    have := join_data L (s ++ t)
    simp only [List.foldl_cons, this, String.data_append, List.map_cons,
      List.flatten_cons, List.append_assoc]

theorem string_join_data (L : List String) :
    (String.join L).data = (L.map String.data).flatten := by
  have := join_data L ""
  simpa [String.join] using this

theorem string_join_map_mk (L : List (List Char)) :
    String.join (L.map String.mk) = String.mk L.flatten := by
  apply string_data_eq
  rw [string_join_data, List.map_map]
  have h : String.data ∘ String.mk = id := rfl
  rw [h, List.map_id]

theorem string_join_append (A B : List String) :
    String.join (A ++ B) = String.join A ++ String.join B := by
  apply string_data_eq
  simp [string_join_data, String.data_append]

theorem string_join_flatMap {α : Type} (l : List α) (f : α → List String) :
    String.join (l.flatMap f) = String.join (l.map (fun x => String.join (f x))) := by
  induction l with
  | nil => rfl
  | cons a l ih =>
    rw [List.flatMap_cons, string_join_append, ih]
    apply string_data_eq
    simp [string_join_data, String.data_append]

theorem foldl_append_flatMap {α β : Type} (g : α → List β) :
    ∀ (L : List α) (acc : List β),
      L.foldl (fun a x => a ++ g x) acc = acc ++ L.flatMap g
  | [], acc => by simp
  | x :: L, acc => by
    have := foldl_append_flatMap g L (acc ++ g x)
    simp [this, List.flatMap_cons]

/-! ## Helper lemmas on the pipeline -/

theorem split_into_syllables_flatMap (hyph : String → String) (line : String) :
    split_into_syllables hyph line =
      (pySplitWs line).flatMap (fun w => pySplitChar '-' (hyph w)) := by
  unfold split_into_syllables
  exact foldl_append_flatMap _ _ []

theorem pySplitChar_no_sep (sep : Char) (s : String) (h : sep ∉ s.toList) :
    pySplitChar sep s = [s] := by
  unfold pySplitChar
  rw [splitCharGo_no_sep sep s.toList [] h]
  rfl

theorem pySplitWs_all_space (line : String)
    (h : ∀ c ∈ line.toList, pyIsSpace c = true) : pySplitWs line = [] := by
  unfold pySplitWs
  rw [splitWsGo_all_space line.toList h]
  rfl

theorem melodyGo_length : ∀ (i0 : Nat) (syls : List String),
    (melodyGo i0 syls).length = syls.length
  | _, [] => rfl
  | i0, _ :: rest => by simp [melodyGo, melodyGo_length (i0 + 1) rest]

theorem melodyGo_getD : ∀ (syls : List String) (i0 i : Nat), i < syls.length →
    (melodyGo i0 syls).getD i ("", 0, "") =
      (scale_notes.getD ((i0 + i) % 7) "", (1 : ℚ), syls.getD i "")
  | [], _, i, h => by simp at h
  | syl :: rest, i0, 0, _ => by
    simp [melodyGo, scale_notes]
  | syl :: rest, i0, i + 1, h => by
    have ih := melodyGo_getD rest (i0 + 1) i (by simpa using h)
    simp only [melodyGo, List.getD_cons_succ, ih]
    rw [show i0 + 1 + i = i0 + (i + 1) by omega]

theorem melodyGo_lyricsMap : ∀ (i0 : Nat) (syls : List String),
    (melodyGo i0 syls).map (fun t => t.2.2) = syls
  | _, [] => rfl
  | i0, syl :: rest => by simp [melodyGo, melodyGo_lyricsMap (i0 + 1) rest]

theorem melodyGo_pitch_mem : ∀ (i0 : Nat) (syls : List String)
    (t : String × ℚ × String), t ∈ melodyGo i0 syls → t.1 ∈ scale_notes
  | i0, syl :: rest, t, ht => by
    simp only [melodyGo, List.mem_cons] at ht
    rcases ht with ht | ht
    · subst ht
      have h7 : (0 : Nat) < scale_notes.length := by decide
      have hlt : i0 % scale_notes.length < scale_notes.length := Nat.mod_lt i0 h7
      rw [List.getD_eq_getElem _ _ hlt]
      exact List.getElem_mem hlt
    · exact melodyGo_pitch_mem (i0 + 1) rest t ht

theorem generate_notes_flatMap (hyph : String → String) (lyrics : String) :
    (generate_melody_from_lyrics hyph lyrics).notes =
      ((pySplitChar '\n' lyrics).filter (fun l => pyStrip l ≠ "")).flatMap
        (generate_melody_for_line hyph) := by
  unfold generate_melody_from_lyrics
  exact foldl_append_flatMap _ _ []

theorem generate_notes_pitch_mem (hyph : String → String) (lyrics : String)
    (t : String × ℚ × String) (ht : t ∈ (generate_melody_from_lyrics hyph lyrics).notes) :
    t.1 ∈ scale_notes := by
  rw [generate_notes_flatMap] at ht
  rcases List.mem_flatMap.mp ht with ⟨line, _, hmem⟩
  exact melodyGo_pitch_mem 0 _ t hmem

theorem midi_name_inv (p : String) (hp : p ∈ scale_notes) :
    midi_to_name (pitch_to_midi p) = p := by
  simp only [scale_notes, List.mem_cons, List.not_mem_nil, or_false] at hp
  rcases hp with h | h | h | h | h | h | h <;> subst h <;> rfl

theorem parse_note_events_flatMap : ∀ (notes : List (String × ℚ × String)),
    (∀ t ∈ notes, t.1 ∈ scale_notes) →
    parse_note_events (notes.flatMap (fun t =>
      [MidiEvent.lyricMeta t.2.2, MidiEvent.noteOn (pitch_to_midi t.1),
       MidiEvent.noteOff (pitch_to_midi t.1) t.2.1])) = some notes
  | [], _ => rfl
  | t :: notes, h => by
    have ih := parse_note_events_flatMap notes (fun u hu => h u (by simp [hu]))
    have ht : t.1 ∈ scale_notes := h t (by simp)
    simp only [List.flatMap_cons, List.cons_append, List.nil_append]
    unfold parse_note_events
    rw [if_pos rfl, ih]
    simp [midi_name_inv t.1 ht]

/-! ## Helper lemmas for the lyric formatter -/

theorem toUpper_ne_newline (c : Char) (h : c ≠ '\n') : c.toUpper ≠ '\n' := by
  unfold Char.toUpper
  by_cases hl : c.toNat ≥ 97 ∧ c.toNat ≤ 122
  · rw [if_pos hl]
    intro hc
    have h2 : (Char.ofNat (c.toNat - 32)).toNat = ('\n').toNat := by rw [hc]
    have h3 : (c.toNat - 32).isValidChar := by
      left
      omega
    rw [Char.ofNat, dif_pos h3] at h2
    have h4 : (Char.ofNatAux (c.toNat - 32) h3).toNat = c.toNat - 32 := rfl
    rw [h4] at h2
    have h5 : ('\n').toNat = 10 := by decide
    omega
  · rw [if_neg hl]
    exact h

theorem pyStripListOn_subset (p : Char → Bool) (l : List Char) :
    pyStripListOn p l ⊆ l := by
  unfold pyStripListOn
  intro c hc
  rw [List.mem_reverse] at hc
  have h1 := (List.dropWhile_sublist p).subset hc
  rw [List.mem_reverse] at h1
  exact (List.dropWhile_sublist p).subset h1

theorem capFirst_cons (c : Char) (cs : List Char) (s : String) (hs : s.toList = c :: cs) :
    capFirst s = String.mk (c.toUpper :: cs) := by
  unfold capFirst
  rw [hs]

theorem capFirst_no_newline (s : String) (h : '\n' ∉ s.toList) :
    '\n' ∉ (capFirst s).toList := by
  cases hs : s.toList with
  | nil =>
    have : s = "" := string_data_eq (a := s) (b := "") hs
    subst this
    simp [capFirst]
  | cons c cs =>
    rw [capFirst_cons c cs s hs]
    rw [hs] at h
    simp only [List.mem_cons, not_or] at h
    intro hm
    rcases List.mem_cons.mp hm with hm | hm
    · exact toUpper_ne_newline c (fun hc => h.1 hc.symm) hm.symm
    · exact h.2 hm

theorem capFirst_ne_empty (s : String) (h : s ≠ "") : capFirst s ≠ "" := by
  cases hs : s.toList with
  | nil =>
    exact absurd (string_data_eq (a := s) (b := "") hs) h
  | cons c cs =>
    rw [capFirst_cons c cs s hs]
    intro hc
    have h2 : (String.mk (c.toUpper :: cs)).data = ("" : String).data :=
      congrArg String.data hc
    simp at h2

theorem pySplitChar_pieces (sep : Char) (s : String) (p : String)
    (hp : p ∈ pySplitChar sep s) : sep ∉ p.toList := by
  unfold pySplitChar at hp
  rcases List.mem_map.mp hp with ⟨l, hl, rfl⟩
  exact splitCharGo_pieces sep s.toList [] (by simp) l hl

theorem pyJoin_two_newlines_split : ∀ (M : List String),
    (∀ m ∈ M, '\n' ∉ m.toList ∧ m ≠ "") →
    (pySplitChar '\n' (pyJoin "\n\n" M)).filter (fun l => l ≠ "") = M
  | [], _ => rfl
  | [m], h => by
    have hm := h m (by simp)
    rw [pyJoin, pySplitChar_no_sep '\n' m hm.1]
    simp [hm.2]
  | m :: m' :: M, h => by
    have hm := h m (by simp)
    have ih := pyJoin_two_newlines_split (m' :: M) (fun u hu => h u (by simp at hu ⊢; tauto))
    show (pySplitChar '\n' (m ++ "\n\n" ++ pyJoin "\n\n" (m' :: M))).filter
      (fun l => l ≠ "") = m :: m' :: M
    unfold pySplitChar
    have hdata : (m ++ "\n\n" ++ pyJoin "\n\n" (m' :: M)).toList =
        m.toList ++ '\n' :: '\n' :: (pyJoin "\n\n" (m' :: M)).toList := by
      show (m ++ "\n\n" ++ pyJoin "\n\n" (m' :: M)).data = _
      rw [String.data_append, String.data_append, List.append_assoc]
      rfl
    rw [hdata, splitCharGo_append_sep '\n' m.toList _ [] hm.1]
    have h2 : splitCharGo '\n' ('\n' :: (pyJoin "\n\n" (m' :: M)).toList) [] =
        [] :: splitCharGo '\n' (pyJoin "\n\n" (m' :: M)).toList [] := by
      simp [splitCharGo]
    rw [h2]
    simp only [List.map_cons, List.reverse_nil, List.nil_append, List.filter_cons]
    have e1 : String.mk m.toList = m := rfl
    have e2 : String.mk ([] : List Char) = "" := rfl
    rw [e1, e2]
    rw [if_pos (decide_eq_true hm.2), if_neg (by simp)]
    rw [show (splitCharGo '\n' (pyJoin "\n\n" (m' :: M)).toList []).map String.mk
      = pySplitChar '\n' (pyJoin "\n\n" (m' :: M)) from rfl, ih]

theorem head?_dropWhile_not (p : Char → Bool) : ∀ (l : List Char) (c : Char),
    (l.dropWhile p).head? = some c → p c = false
  | [], c, h => by simp [List.dropWhile] at h
  | a :: l, c, h => by
    by_cases ha : p a
    · rw [List.dropWhile_cons_of_pos ha] at h
      exact head?_dropWhile_not p l c h
    · rw [List.dropWhile_cons_of_neg ha] at h
      simp only [List.head?_cons, Option.some.injEq] at h
      subst h
      simpa using ha

theorem getLast?_dropWhile (p : Char → Bool) (l : List Char)
    (hne : l.dropWhile p ≠ []) : (l.dropWhile p).getLast? = l.getLast? := by
  rcases List.dropWhile_suffix p (l := l) with ⟨t, ht⟩
  conv_rhs => rw [← ht]
  rw [List.getLast?_append]
  cases hx : (l.dropWhile p).getLast? with
  | none =>
    exfalso
    apply hne
    simpa using hx
  | some x => simp [Option.or]

theorem pyStripListOn_head (p : Char → Bool) (l : List Char) (c : Char)
    (h : (pyStripListOn p l).head? = some c) : p c = false := by
  unfold pyStripListOn at h
  rw [List.head?_reverse] at h
  have hne : (l.dropWhile p).reverse.dropWhile p ≠ [] := by
    intro hc
    rw [hc] at h
    simp at h
  rw [getLast?_dropWhile _ _ hne, List.getLast?_reverse] at h
  exact head?_dropWhile_not p l c h

theorem pyStripListOn_getLast (p : Char → Bool) (l : List Char) (c : Char)
    (h : (pyStripListOn p l).getLast? = some c) : p c = false := by
  unfold pyStripListOn at h
  rw [List.getLast?_reverse] at h
  exact head?_dropWhile_not p _ c h

theorem format_text_nonblank_lines (raw : String) :
    (pySplitChar '\n' (format_text raw)).filter (fun l => l ≠ "") =
      (((pySplitChar '\n' raw).map pyStrip).filter (fun l => l ≠ "")).map capFirst := by
  show (pySplitChar '\n' (pyJoin "\n\n"
      ((((pySplitChar '\n' raw).map pyStrip).filter (fun l => l ≠ "")).map
        (fun l => if l ≠ "" then capFirst l else "")))).filter (fun l => l ≠ "") = _
  have hmap : (((pySplitChar '\n' raw).map pyStrip).filter (fun l => l ≠ "")).map
        (fun l => if l ≠ "" then capFirst l else "") =
      (((pySplitChar '\n' raw).map pyStrip).filter (fun l => l ≠ "")).map capFirst := by
    apply List.map_congr_left
    intro a ha
    have hane : a ≠ "" := of_decide_eq_true (List.mem_filter.mp ha).2
    simp [hane]
  rw [hmap]
  apply pyJoin_two_newlines_split
  intro mm hmm
  rcases List.mem_map.mp hmm with ⟨l, hl, rfl⟩
  have hlne : l ≠ "" := of_decide_eq_true (List.mem_filter.mp hl).2
  rcases List.mem_map.mp (List.mem_filter.mp hl).1 with ⟨piece, hpiece, rfl⟩
  refine ⟨?_, capFirst_ne_empty _ hlne⟩
  apply capFirst_no_newline
  intro hn
  have hsub := pyStripListOn_subset pyIsSpace piece.toList hn
  exact pySplitChar_pieces '\n' raw piece hpiece hsub

/-! ## Claims -/

/-- C1: for every lyric line, the Melody Mapper produces exactly one Note
per syllable unit (its output length equals the Syllabifier's output
length for the line), the unit at 0-based position i receives pitch
scale[i mod 7] with the fixed ascending scale C4, D4, E4, F4, G4, A4, B4
and duration exactly 1.0 beats, and each Note carries its syllable unit
as the lyric annotation. -/
theorem melody_mapper_one_note_per_unit (hyph : String → String) (line : String) :
    (generate_melody_for_line hyph line).length =
      (split_into_syllables hyph line).length ∧
    scale_notes = ["C4", "D4", "E4", "F4", "G4", "A4", "B4"] ∧
    (∀ i : Nat, i < (split_into_syllables hyph line).length →
      (generate_melody_for_line hyph line).getD i ("", 0, "") =
        (scale_notes.getD (i % 7) "", (1 : ℚ),
          (split_into_syllables hyph line).getD i "")) := by
  refine ⟨melodyGo_length 0 _, rfl, ?_⟩
  intro i hi
  have h := melodyGo_getD (split_into_syllables hyph line) 0 i hi
  simpa using h

/-- C1 witness at the spec's end-to-end example line "Hello world" with
"Hello" hyphenated as "Hel-lo". -/
theorem melody_mapper_one_note_per_unit_witness :
    0 < (split_into_syllables hyph_demo "Hello world").length ∧
    (generate_melody_for_line hyph_demo "Hello world").getD 0 ("", 0, "") =
      (scale_notes.getD (0 % 7) "", (1 : ℚ),
        (split_into_syllables hyph_demo "Hello world").getD 0 "") :=
  ⟨by decide,
   (melody_mapper_one_note_per_unit hyph_demo "Hello world").2.2 0 (by decide)⟩

/-- C2: the Score Builder drops blank lines, maps each remaining line in
line order through the Syllabifier and the Melody Mapper, concatenates
all Notes in left-to-right line-by-line syllable order, attaches the
fixed instrument program id 53, and yields an empty Note sequence when
the lyric text has no non-blank line. -/
theorem score_builder_spec (hyph : String → String) (lyrics : String) :
    (generate_melody_from_lyrics hyph lyrics).midiProgram = 53 ∧
    (generate_melody_from_lyrics hyph lyrics).notes =
      ((pySplitChar '\n' lyrics).filter (fun l => pyStrip l ≠ "")).flatMap
        (generate_melody_for_line hyph) ∧
    (generate_melody_from_lyrics hyph lyrics).notes.map (fun t => t.2.2) =
      ((pySplitChar '\n' lyrics).filter (fun l => pyStrip l ≠ "")).flatMap
        (split_into_syllables hyph) ∧
    ((pySplitChar '\n' lyrics).filter (fun l => pyStrip l ≠ "") = [] →
      (generate_melody_from_lyrics hyph lyrics).notes = []) := by
  refine ⟨rfl, generate_notes_flatMap hyph lyrics, ?_, ?_⟩
  · rw [generate_notes_flatMap, List.map_flatMap]
    have hline : ∀ line, (generate_melody_for_line hyph line).map (fun t => t.2.2) =
        split_into_syllables hyph line := fun line => melodyGo_lyricsMap 0 _
    simp only [hline]
  · intro h
    rw [generate_notes_flatMap, h]
    rfl

/-- C2 witness: a lyric text whose lines are all blank yields program id
53 and an empty Note sequence. -/
theorem score_builder_spec_witness :
    (generate_melody_from_lyrics no_boundary_hyph "   \n \n").midiProgram = 53 ∧
    (generate_melody_from_lyrics no_boundary_hyph "   \n \n").notes = [] :=
  ⟨(score_builder_spec no_boundary_hyph "   \n \n").1,
   (score_builder_spec no_boundary_hyph "   \n \n").2.2.2 (by decide)⟩

/-- C3 (amended): the Syllabifier returns the per-word unit sub-sequences
concatenated in word order; a word containing no hyphen character whose
hyphenated form is the word itself (no boundary detected) yields a single
unit equal to the whole word — a word containing a literal hyphen is
split at it even when hyphenation detects no boundary; a whitespace-only
or empty line yields the empty sequence; and the Syllabifier is total. -/
theorem syllabifier_spec (hyph : String → String) (line : String) :
    split_into_syllables hyph line =
      (pySplitWs line).flatMap (fun w => pySplitChar '-' (hyph w)) ∧
    (∀ w : String, hyph w = w → '-' ∉ w.toList →
      pySplitChar '-' (hyph w) = [w]) ∧
    ((∀ c ∈ line.toList, pyIsSpace c = true) → split_into_syllables hyph line = []) := by
  refine ⟨split_into_syllables_flatMap hyph line, ?_, ?_⟩
  · intro w hw hnh
    rw [hw]
    exact pySplitChar_no_sep '-' w hnh
  · intro h
    rw [split_into_syllables_flatMap, pySplitWs_all_space line h]
    rfl

/-- C3 witness: a hyphen-free word with no detected boundary is one unit,
and a whitespace-only line yields no units. -/
theorem syllabifier_spec_witness :
    pySplitChar '-' (no_boundary_hyph "world") = ["world"] ∧
    split_into_syllables no_boundary_hyph "  \t " = [] :=
  ⟨(syllabifier_spec no_boundary_hyph "  \t ").2.1 "world" rfl (by decide),
   (syllabifier_spec no_boundary_hyph "  \t ").2.2 (by decide)⟩

/-- C3 counterexample: under a hyphenation dictionary that detects no
boundary in any word (`inserted` returns every word unchanged), the word
"hal-9000" still does not become a single unit equal to the whole word:
the code splits the hyphenated form on every hyphen character, including
the word's own literal hyphen. -/
theorem syllabifier_hyphen_counterexample :
    no_boundary_hyph "hal-9000" = "hal-9000" ∧
    split_into_syllables no_boundary_hyph "hal-9000" = ["hal", "9000"] ∧
    split_into_syllables no_boundary_hyph "hal-9000" ≠ ["hal-9000"] :=
  ⟨rfl, by decide, by decide⟩

/-- C4: the Melody Mapper is deterministic: its result is a function of
the line and the hyphenation dictionary values only — two runs on
identical input agree — and the ambient random-generator state neither
influences the result nor is advanced by the call. -/
theorem melody_mapper_deterministic (hyph₁ hyph₂ : String → String)
    (rng₁ rng₂ : Nat) (line : String) (h : ∀ w, hyph₁ w = hyph₂ w) :
    (generate_melody_for_line_rng hyph₁ rng₁ line).1 =
      (generate_melody_for_line_rng hyph₂ rng₂ line).1 ∧
    (generate_melody_for_line_rng hyph₁ rng₁ line).2 = rng₁ ∧
    generate_melody_for_line hyph₁ line = generate_melody_for_line hyph₂ line := by
  have he : hyph₁ = hyph₂ := funext h
  subst he
  exact ⟨rfl, rfl, rfl⟩

/-- C4 witness: two runs on "Hello world" under different
random-generator states produce the same Note sequence. -/
theorem melody_mapper_deterministic_witness :
    (generate_melody_for_line_rng hyph_demo 0 "Hello world").1 =
      (generate_melody_for_line_rng hyph_demo 37 "Hello world").1 ∧
    (generate_melody_for_line_rng hyph_demo 0 "Hello world").2 = 0 :=
  ⟨(melody_mapper_deterministic hyph_demo hyph_demo 0 37 "Hello world" (fun _ => rfl)).1,
   (melody_mapper_deterministic hyph_demo hyph_demo 0 37 "Hello world" (fun _ => rfl)).2.1⟩

/-- C5: serializing a pipeline Score to the note-event file and
re-parsing it reproduces the same ordered (pitch, duration, lyric)
triples in exactly Score order, with the fixed instrument event first and
each lyric attached as a meta-event to its note-on. -/
theorem serializer_roundtrip (hyph : String → String) (lyrics : String) :
    parse_score_file (serialize_score (generate_melody_from_lyrics hyph lyrics)) =
      some (53, (generate_melody_from_lyrics hyph lyrics).notes) ∧
    (serialize_score (generate_melody_from_lyrics hyph lyrics)).head? =
      some (MidiEvent.programChange 53) := by
  constructor
  · have h := parse_note_events_flatMap (generate_melody_from_lyrics hyph lyrics).notes
      (fun t ht => generate_notes_pitch_mem hyph lyrics t ht)
    show Option.map (fun ns => ((generate_melody_from_lyrics hyph lyrics).midiProgram, ns))
      (parse_note_events ((generate_melody_from_lyrics hyph lyrics).notes.flatMap fun t =>
        [MidiEvent.lyricMeta t.2.2, MidiEvent.noteOn (pitch_to_midi t.1),
         MidiEvent.noteOff (pitch_to_midi t.1) t.2.1])) =
      some (53, (generate_melody_from_lyrics hyph lyrics).notes)
    rw [h]
    rfl
  · rfl

/-- C6: the code at the failing input (sound-font path does not exist).
The fluidsynth command fails, but midi2audio invokes it through
`subprocess.call`, whose exit status it ignores, so `midi_to_wav` raises
nothing and hands back the empty bytes it reads from the untouched
temporary `.wav` file: no ResourceMissing condition is surfaced to the
caller (the source has no existence check for SOUNDFONT_PATH and no
error handling around the render call). -/
theorem audio_renderer_missing_soundfont_behavior :
    (midi_to_wav SynthOutcome.failedIgnored [77]).1 = Except.ok [] ∧
    (midi_to_wav SynthOutcome.failedIgnored [77]).2.files = [] :=
  ⟨rfl, rfl⟩

/-- C7: the Voice Conversion Adapter fails with InvocationFailed carrying
the subprocess's stderr text on any non-zero exit status; fails with
OutputMissing carrying the expected artifact name (derived from the input
identifier, the zero pitch shift and the target speaker id) and the
results-directory listing when the process succeeds but the artifact is
absent; and performs exactly one subprocess invocation (no retry). -/
theorem svc_adapter_error_handling (proc : ProcResult) (resultsDir : List String)
    (readFile : String → List Nat) (svc_model svc_config : String) :
    (proc.exitCode ≠ 0 →
      (so_vits_svc_infer proc resultsDir readFile svc_model svc_config).1 =
        Except.error (SvcError.invocationFailed proc.stderr)) ∧
    (proc.exitCode = 0 → svc_expected_output ∉ resultsDir →
      (so_vits_svc_infer proc resultsDir readFile svc_model svc_config).1 =
        Except.error (SvcError.outputMissing svc_expected_output resultsDir)) ∧
    svc_expected_output = "temp_infer_0key_hal-9000_sovits_pm.flac" ∧
    (so_vits_svc_infer proc resultsDir readFile svc_model svc_config).2 =
      [svc_cmd svc_model svc_config] := by
  refine ⟨?_, ?_, rfl, ?_⟩
  · intro h
    unfold so_vits_svc_infer
    rw [if_pos h]
  · intro h hmem
    unfold so_vits_svc_infer
    rw [if_neg (by simp [h]), if_neg hmem]
  · unfold so_vits_svc_infer
    by_cases h : proc.exitCode ≠ 0
    · rw [if_pos h]
    · rw [if_neg h]
      by_cases hm : svc_expected_output ∈ resultsDir
      · rw [if_pos hm]
      · rw [if_neg hm]

/-- C7 witness: a non-zero exit yields InvocationFailed with the stderr
text, and a zero exit without the expected artifact yields OutputMissing
with the directory listing. -/
theorem svc_adapter_error_handling_witness :
    (so_vits_svc_infer ⟨1, "", "boom"⟩ [] (fun _ => []) "m" "c").1 =
      Except.error (SvcError.invocationFailed "boom") ∧
    (so_vits_svc_infer ⟨0, "", ""⟩ ["other.flac"] (fun _ => []) "m" "c").1 =
      Except.error (SvcError.outputMissing svc_expected_output ["other.flac"]) :=
  ⟨(svc_adapter_error_handling ⟨1, "", "boom"⟩ [] (fun _ => []) "m" "c").1 (by decide),
   (svc_adapter_error_handling ⟨0, "", ""⟩ ["other.flac"] (fun _ => []) "m" "c").2.1 rfl
     (by decide)⟩

/-- C8: the code at a failing exit path: when the FluidSynth invocation
raises a Python-level exception (for example the fluidsynth executable is
absent), `midi_to_wav` propagates the error and both temporary files are
left behind — the two `os.remove` calls sit after the read on the success
path only, with no try/finally. -/
theorem midi_to_wav_failure_leaves_temp_files :
    (midi_to_wav SynthOutcome.raised [77]).1 =
      Except.error "exception raised by the FluidSynth invocation" ∧
    fsExists (midi_to_wav SynthOutcome.raised [77]).2 tmpMidPath = true ∧
    fsExists (midi_to_wav SynthOutcome.raised [77]).2 tmpWavPath = true :=
  ⟨rfl, rfl, rfl⟩

/-- C9 counterexample: formatting the two-line model output "a\nb" yields
"A\n\nB", whose line decomposition contains a blank line (the formatter
joins retained lines with a double newline), refuting "the resulting
lyric text contains no blank lines". -/
theorem format_text_blank_line_counterexample :
    format_text "a\nb" = "A\n\nB" ∧
    "" ∈ pySplitChar '\n' (format_text "a\nb") :=
  ⟨by decide, by decide⟩

/-- C9 (amended): surrounding double-quote characters are trimmed from
the model output (the post-processed text neither starts nor ends with a
double quote), and blank lines are collapsed up to the double-newline
join: the non-blank lines of the formatted text are exactly the trimmed
original non-blank lines with the first character uppercased, in order,
with one blank separator line between consecutive retained lines. -/
theorem lyric_postprocessing_spec (raw : String) :
    (pySplitChar '\n' (format_text raw)).filter (fun l => l ≠ "") =
      (((pySplitChar '\n' raw).map pyStrip).filter (fun l => l ≠ "")).map capFirst ∧
    (∀ c : Char, (postprocess_model_output raw).toList.head? = some c → c ≠ '"') ∧
    (∀ c : Char, (postprocess_model_output raw).toList.getLast? = some c → c ≠ '"') := by
  refine ⟨format_text_nonblank_lines raw, ?_, ?_⟩
  · intro c hc
    have h := pyStripListOn_head (fun d => d = '"') (pyStrip raw).toList c hc
    simpa using h
  · intro c hc
    have h := pyStripListOn_getLast (fun d => d = '"') (pyStrip raw).toList c hc
    simpa using h

/-- C9 witness on the quoted two-line model output. -/
theorem lyric_postprocessing_spec_witness :
    (pySplitChar '\n' (format_text "\"hi\nthere\"")).filter (fun l => l ≠ "") =
      (((pySplitChar '\n' "\"hi\nthere\"").map pyStrip).filter
        (fun l => l ≠ "")).map capFirst ∧
    'h' ≠ '"' :=
  ⟨(lyric_postprocessing_spec "\"hi\nthere\"").1,
   (lyric_postprocessing_spec "\"hi\nthere\"").2.1 'h' (by decide)⟩

/-- C10: for a hyphenation dictionary that only inserts hyphen characters
into the word (pyphen's contract), concatenating the syllable units of a
word containing no hyphen character restores the word unchanged, and
joining all units of a line of such words restores the line's characters
minus its whitespace — every lyric character ends up in exactly one
Note's lyric. -/
theorem syllable_units_preserve_characters (hyph : String → String)
    (hins : ∀ w : String,
      (hyph w).toList.filter (fun c => c ≠ '-') = w.toList.filter (fun c => c ≠ '-'))
    (line : String) :
    (∀ w : String, '-' ∉ w.toList → String.join (pySplitChar '-' (hyph w)) = w) ∧
    ((∀ w ∈ pySplitWs line, '-' ∉ w.toList) →
      String.join (split_into_syllables hyph line) =
        String.mk (line.toList.filter (fun c => !pyIsSpace c))) := by
  have hword : ∀ w : String, '-' ∉ w.toList →
      String.join (pySplitChar '-' (hyph w)) = w := by
    intro w hw
    unfold pySplitChar
    rw [string_join_map_mk]
    apply string_data_eq
    show (splitCharGo '-' (hyph w).toList []).flatten = w.data
    rw [splitCharGo_flatten]
    simp only [List.reverse_nil, List.nil_append]
    rw [hins w]
    exact List.filter_eq_self.mpr (fun c hc => decide_eq_true (fun he => hw (he ▸ hc)))
  refine ⟨hword, ?_⟩
  intro hws
  rw [split_into_syllables_flatMap, string_join_flatMap]
  have hmap : (pySplitWs line).map (fun w => String.join (pySplitChar '-' (hyph w))) =
      (pySplitWs line).map (fun w => w) :=
    List.map_congr_left (fun w hw => hword w (hws w hw))
  rw [hmap, List.map_id']
  unfold pySplitWs
  rw [string_join_map_mk]
  apply string_data_eq
  show (splitWsGo line.toList []).flatten = _
  rw [splitWsGo_flatten]
  rfl

/-- C10 witness at "Hello world" with "Hello" hyphenated as "Hel-lo". -/
theorem syllable_units_preserve_characters_witness :
    String.join (pySplitChar '-' (hyph_demo "Hello")) = "Hello" ∧
    String.join (split_into_syllables hyph_demo "Hello world") =
      String.mk ("Hello world".toList.filter (fun c => !pyIsSpace c)) := by
  have hins : ∀ w : String,
      (hyph_demo w).toList.filter (fun c => c ≠ '-') =
        w.toList.filter (fun c => c ≠ '-') := by
    intro w
    by_cases hw : w = "Hello"
    · subst hw
      decide
    · simp [hyph_demo, hw]
  exact ⟨(syllable_units_preserve_characters hyph_demo hins "Hello world").1 "Hello"
      (by decide),
    (syllable_units_preserve_characters hyph_demo hins "Hello world").2 (by decide)⟩

end FaceTune
